import Mathlib

/-! Verification of the request-augmentation pipeline of src/main.py
(the ishaan-albert-ce repository): the augment_payload endpoint
(CAS-to-CID resolution, property lookup, concentration normalization,
response assembly), its helper get_chemical_data, and the
payload_summary endpoint get_json_data_summary.

Machine floats are modelled as rationals.  Each external PubChem HTTP
call is modelled by an oracle function giving the outcome of the call:
the name-to-CID lookup is keyed by the CAS string (the request URL is
determined by the CAS), the property lookup is keyed by the CID value
(possibly None).  Mutation of the compound list supplied by the caller
is modelled by returning the final state of that list; logging is
modelled by returning the list of log entries emitted. -/

namespace PubChemProxy

/-- The pydantic model Compound of src/main.py: a CAS registry number
string and a concentration. -/
structure Compound where
  cas : String
  conc : ℚ
deriving DecidableEq, Repr

/-- Outcome of one httpx fetch_data call: the parsed JSON on success; an
httpx.HTTPStatusError raised by raise_for_status on a non-success
status; or any other exception (network errors, for example), which is
not an HTTPStatusError.  The msg component models str(e). -/
inductive FetchOutcome (α : Type) where
  | ok (data : α)
  | statusError (msg : String)
  | otherError (msg : String)
deriving DecidableEq, Repr

/-- Shape of the name-to-CID JSON response, as read by the expression
cid_data.get of IdentifierList then of CID: none when the
IdentifierList key is absent, some none when the CID key is absent,
some (some l) when the CID list is l. -/
abbrev CidResponse := Option (Option (List ℤ))

/-- One element of the Properties array of a property-lookup response;
every requested property may be absent. -/
structure ChemProps where
  canonicalSMILES : Option String
  isomericSMILES : Option String
  tpsa : Option ℚ
  molecularWeight : Option ℚ
  xlogp : Option ℚ
  hbondAcceptorCount : Option ℚ
  complexity : Option ℚ
deriving DecidableEq, Repr

/-- Shape of the property-lookup JSON response, as read by the
expression chemical_data.get of PropertyTable then of Properties:
none when the PropertyTable key is absent, some none when the
Properties key is absent, some (some l) when the Properties list is l. -/
abbrev ChemResponse := Option (Option (List ChemProps))

/-- Python exceptions that can escape the per-compound code paths of
augment_payload and reach the outer exception handler. -/
inductive PyExc where
  | indexError
  | httpError (msg : String)
deriving DecidableEq, Repr

/-- The logging calls made along the augment_payload code paths. -/
inductive LogEntry where
  | infoChem
  | errorChem
  | warnNoCid (cas : String)
  | warnMissing (prop : String) (cas : String)
  | errorOuter
deriving DecidableEq, Repr

/-- The fastapi HTTPException raised back to the HTTP layer. -/
structure HTTPException where
  status_code : ℕ
  detail : String
deriving DecidableEq, Repr

/-- The expression in augment_payload reading the first CID: dict.get of
IdentifierList defaults to an empty dict, dict.get of CID defaults to a
one-element list holding None, and indexing position 0 of an empty CID
list raises IndexError. -/
def extractCid : CidResponse → Except PyExc (Option ℤ)
  | none => .ok none
  | some none => .ok none
  | some (some []) => .error .indexError
  | some (some (c :: _)) => .ok (some c)

/-- A property dict with every requested field absent. -/
def emptyProps : ChemProps := ⟨none, none, none, none, none, none, none⟩

/-- The expression in augment_payload reading the first property dict:
dict.get of PropertyTable defaults to an empty dict, dict.get of
Properties defaults to a one-element list holding an empty dict, and
indexing position 0 of an empty Properties list raises IndexError. -/
def extractProps : ChemResponse → Except PyExc ChemProps
  | none => .ok emptyProps
  | some none => .ok emptyProps
  | some (some []) => .error .indexError
  | some (some (p :: _)) => .ok p

/-- get_chemical_data of src/main.py: on success the JSON is returned
and an info line logged; an HTTPStatusError is caught, logged, and
replaced by an error dict, which has no PropertyTable key; any other
exception propagates to the caller without logging. -/
def get_chemical_data (fetch : FetchOutcome ChemResponse) :
    Except PyExc ChemResponse × List LogEntry :=
  match fetch with
  | .ok d => (.ok d, [.infoChem])
  | .statusError _ => (.ok none, [.errorChem])
  | .otherError m => (.error (.httpError m), [])

/-- The Python expression x or y on values read with dict.get, for
string-valued properties: None and the empty string are falsy. -/
def pyOrStr : Option String → Option String → Option String
  | none, b => b
  | some s, b => if s = "" then b else some s

/-- The dict appended to augmented_data for one compound. -/
structure AugRecord where
  cas : String
  conc : ℚ
  smiles : Option String
  polarSurfaceArea : Option ℚ
  molecularWeight : Option ℚ
  logP : Option ℚ
  hydrogenBondAcceptor : Option ℚ
  compoundComplexity : Option ℚ
deriving DecidableEq, Repr

/-- The dict literal appended to augmented_data in augment_payload. -/
def assembleRecord (cas : String) (conc : ℚ) (p : ChemProps) : AugRecord where
  cas := cas
  conc := conc
  smiles := pyOrStr p.canonicalSMILES p.isomericSMILES
  polarSurfaceArea := p.tpsa
  molecularWeight := p.molecularWeight
  logP := p.xlogp
  hydrogenBondAcceptor := p.hbondAcceptorCount
  compoundComplexity := p.complexity

/-- The loop over the items of the just-appended record, warning on
each None value, in dict insertion order.  The cas and conc entries are
a string and a float and are never None. -/
def missingWarnings (r : AugRecord) : List LogEntry :=
  (if r.smiles = none then [.warnMissing "smiles" r.cas] else []) ++
  (if r.polarSurfaceArea = none then [.warnMissing "polarSurfaceArea" r.cas] else []) ++
  (if r.molecularWeight = none then [.warnMissing "molecularWeight" r.cas] else []) ++
  (if r.logP = none then [.warnMissing "logP" r.cas] else []) ++
  (if r.hydrogenBondAcceptor = none then [.warnMissing "hydrogenBondAcceptor" r.cas] else []) ++
  (if r.compoundComplexity = none then [.warnMissing "compoundComplexity" r.cas] else [])

/-- The per-compound loop of augment_payload, run on the already
normalized list.  Only an HTTPStatusError of the CAS-to-CID fetch is
caught (continue); every other exception escapes the loop.  The second
component is the list of log entries emitted before returning or before
the escaping exception. -/
def processLoop (f : String → FetchOutcome CidResponse)
    (g : Option ℤ → FetchOutcome ChemResponse) :
    List Compound → Except PyExc (List AugRecord) × List LogEntry
  | [] => (.ok [], [])
  | c :: rest =>
    match f c.cas with
    | .otherError m => (.error (.httpError m), [])
    | .statusError _ =>
      let r := processLoop f g rest
      (r.1, .warnNoCid c.cas :: r.2)
    | .ok resp =>
      match extractCid resp with
      | .error e => (.error e, [])
      | .ok cid =>
        match get_chemical_data (g cid) with
        | (.error e, logs1) => (.error e, logs1)
        | (.ok chemResp, logs1) =>
          match extractProps chemResp with
          | .error e => (.error e, logs1)
          | .ok props =>
            let record := assembleRecord c.cas c.conc props
            let r := processLoop f g rest
            (match r.1 with
             | .ok recs => .ok (record :: recs)
             | .error e => .error e,
             logs1 ++ missingWarnings record ++ r.2)

/-- The expression total_conc of augment_payload: the sum of the conc
fields of the inputs. -/
def totalConc (compounds : List Compound) : ℚ :=
  (compounds.map Compound.conc).sum

/-- The in-place update compound.conc = compound.conc / total_conc * 100. -/
def normalizeComp (t : ℚ) (c : Compound) : Compound :=
  ⟨c.cas, c.conc / t * 100⟩

/-- augment_payload of src/main.py.  With a non-empty list whose conc
total is zero, the first in-place division raises ZeroDivisionError
before any assignment, so the outer handler fires with the inputs
unchanged.  Otherwise the whole list is normalized in place and the
per-compound loop runs; any exception escaping the loop reaches the
outer handler, which logs and raises HTTPException 500 with a generic
detail.  The result is the triple of the response, the final state of
the compound list supplied by the caller, and the emitted log. -/
def augment_payload (compounds : List Compound)
    (f : String → FetchOutcome CidResponse)
    (g : Option ℤ → FetchOutcome ChemResponse) :
    Except HTTPException (List AugRecord) × List Compound × List LogEntry :=
  if compounds ≠ [] ∧ totalConc compounds = 0 then
    (.error ⟨500, "Internal Server Error"⟩, compounds, [.errorOuter])
  else
    let normalized := compounds.map (normalizeComp (totalConc compounds))
    let r := processLoop f g normalized
    match r.1 with
    | .ok recs => (.ok recs, normalized, r.2)
    | .error _ => (.error ⟨500, "Internal Server Error"⟩, normalized, r.2 ++ [.errorOuter])

/-- The body returned by the payload_summary endpoint. -/
structure SummaryResponse (α : Type) where
  total_items : ℕ
  preview : List α
deriving DecidableEq, Repr

/-- get_json_data_summary of src/main.py, the payload_summary endpoint:
on success it returns the item count and the first five items; every
exception is caught and re-raised as HTTPException 404 whose detail
embeds str(e). -/
def get_json_data_summary {α : Type} (fetch : FetchOutcome (List α)) :
    Except HTTPException (SummaryResponse α) :=
  match fetch with
  | .ok l => .ok ⟨l.length, l.take 5⟩
  | .statusError m => .error ⟨404, "Error : " ++ m⟩
  | .otherError m => .error ⟨404, "Error : " ++ m⟩

/-- An HTTP client error in the 4xx range. -/
def isClientError (e : HTTPException) : Prop :=
  400 ≤ e.status_code ∧ e.status_code < 500

instance (e : HTTPException) : Decidable (isClientError e) :=
  inferInstanceAs (Decidable (_ ∧ _))

/-- An HTTP server error in the 5xx range. -/
def isServerError (e : HTTPException) : Prop :=
  500 ≤ e.status_code ∧ e.status_code < 600

instance (e : HTTPException) : Decidable (isServerError e) :=
  inferInstanceAs (Decidable (_ ∧ _))

/-- The record, if any, that one iteration of the loop emits for
compound c, as a function of the oracles: none when the compound is
skipped by the continue branch or when an exception escapes. -/
def recordOf (f : String → FetchOutcome CidResponse)
    (g : Option ℤ → FetchOutcome ChemResponse) (c : Compound) : Option AugRecord :=
  match f c.cas with
  | .ok resp =>
    match extractCid resp with
    | .ok cid =>
      match get_chemical_data (g cid) with
      | (.ok chemResp, _) =>
        match extractProps chemResp with
        | .ok props => some (assembleRecord c.cas c.conc props)
        | .error _ => none
      | (.error _, _) => none
    | .error _ => none
  | .statusError _ => none
  | .otherError _ => none

/-- The compound is skipped by the continue branch: its CAS-to-CID
fetch raised an HTTPStatusError. -/
def skippedAt (f : String → FetchOutcome CidResponse) (c : Compound) : Bool :=
  match f c.cas with
  | .statusError _ => true
  | _ => false

/-- Both external calls for a given CAS succeed and yield a CID and a
property dict: the fully successful path of the loop body. -/
def lookupChainOk (f : String → FetchOutcome CidResponse)
    (g : Option ℤ → FetchOutcome ChemResponse) (cas : String) : Prop :=
  ∃ resp cid chemResp props,
    f cas = .ok resp ∧ extractCid resp = .ok (some cid) ∧
    g (some cid) = .ok chemResp ∧ extractProps chemResp = .ok props

lemma recordOf_isSome_of_chainOk (f : String → FetchOutcome CidResponse)
    (g : Option ℤ → FetchOutcome ChemResponse) (c : Compound)
    (h : lookupChainOk f g c.cas) : (recordOf f g c).isSome = true := by
  obtain ⟨resp, cid, chemResp, props, h1, h2, h3, h4⟩ := h
  simp [recordOf, h1, h2, get_chemical_data, h3, h4]

lemma recordOf_cas (f : String → FetchOutcome CidResponse)
    (g : Option ℤ → FetchOutcome ChemResponse) (c : Compound) (r : AugRecord)
    (h : recordOf f g c = some r) : r.cas = c.cas := by
  unfold recordOf at h
  split at h
  · split at h
    · split at h
      · split at h
        · cases h
          rfl
        · cases h
      · cases h
    · cases h
  · cases h
  · cases h

/-- If every compound of the list is either skipped by the continue
branch or completes an iteration producing a record, then the loop
returns normally and its records are exactly the per-compound records
in order. -/
lemma processLoop_ok (f : String → FetchOutcome CidResponse)
    (g : Option ℤ → FetchOutcome ChemResponse) (l : List Compound)
    (h : ∀ c ∈ l, skippedAt f c = true ∨ (recordOf f g c).isSome = true) :
    ∃ logs, processLoop f g l = (.ok (l.filterMap (recordOf f g)), logs) := by
  induction l with
  | nil => exact ⟨[], rfl⟩
  | cons c rest ih =>
    obtain ⟨logs, hrest⟩ := ih fun x hx => h x (List.mem_cons_of_mem _ hx)
    cases hf : f c.cas with
    | statusError m =>
      refine ⟨.warnNoCid c.cas :: logs, ?_⟩
      have hrec : recordOf f g c = none := by simp [recordOf, hf]
      simp [processLoop, hf, hrest, List.filterMap_cons, hrec]
    | otherError m =>
      exfalso
      rcases h c (List.mem_cons_self _ _) with hskip | hsome
      · simp [skippedAt, hf] at hskip
      · simp [recordOf, hf] at hsome
    | ok resp =>
      rcases h c (List.mem_cons_self _ _) with hskip | hsome
      · simp [skippedAt, hf] at hskip
      · cases hc : extractCid resp with
        | error e => simp [recordOf, hf, hc] at hsome
        | ok cid =>
          cases hg : get_chemical_data (g cid) with
          | mk res logs1 =>
            cases res with
            | error e => simp [recordOf, hf, hc, hg] at hsome
            | ok chemResp =>
              cases hp : extractProps chemResp with
              | error e => simp [recordOf, hf, hc, hg, hp] at hsome
              | ok props =>
                refine ⟨logs1 ++ missingWarnings (assembleRecord c.cas c.conc props) ++ logs, ?_⟩
                have hrec : recordOf f g c = some (assembleRecord c.cas c.conc props) := by
                  simp [recordOf, hf, hc, hg, hp]
                simp [processLoop, hf, hc, hg, hp, hrest, List.filterMap_cons, hrec]

lemma filterMap_recordOf_map_cas (f : String → FetchOutcome CidResponse)
    (g : Option ℤ → FetchOutcome ChemResponse) (l : List Compound)
    (h : ∀ c ∈ l, (recordOf f g c).isSome = true) :
    (l.filterMap (recordOf f g)).map AugRecord.cas = l.map Compound.cas := by
  induction l with
  | nil => rfl
  | cons c rest ih =>
    have hc := h c (List.mem_cons_self _ _)
    obtain ⟨r, hr⟩ := Option.isSome_iff_exists.mp hc
    simp [List.filterMap_cons, hr, recordOf_cas f g c r hr,
      ih fun x hx => h x (List.mem_cons_of_mem _ hx)]

lemma augment_payload_of_total_ne (compounds : List Compound)
    (f : String → FetchOutcome CidResponse)
    (g : Option ℤ → FetchOutcome ChemResponse)
    (ht : totalConc compounds ≠ 0) :
    augment_payload compounds f g =
      (let normalized := compounds.map (normalizeComp (totalConc compounds))
       let r := processLoop f g normalized
       match r.1 with
       | .ok recs => (.ok recs, normalized, r.2)
       | .error _ => (.error ⟨500, "Internal Server Error"⟩, normalized, r.2 ++ [.errorOuter])) := by
  have hcond : ¬(compounds ≠ [] ∧ totalConc compounds = 0) := fun hx => ht hx.2
  unfold augment_payload
  rw [if_neg hcond]

lemma augment_payload_mutates (compounds : List Compound)
    (f : String → FetchOutcome CidResponse)
    (g : Option ℤ → FetchOutcome ChemResponse)
    (ht : totalConc compounds ≠ 0) :
    (augment_payload compounds f g).2.1 =
      compounds.map (normalizeComp (totalConc compounds)) := by
  rw [augment_payload_of_total_ne compounds f g ht]
  cases hr : (processLoop f g (compounds.map (normalizeComp (totalConc compounds)))).1 <;>
    simp [hr]

lemma augment_payload_fst_of_ok (compounds : List Compound)
    (f : String → FetchOutcome CidResponse)
    (g : Option ℤ → FetchOutcome ChemResponse)
    (recs : List AugRecord) (logs : List LogEntry)
    (ht : totalConc compounds ≠ 0)
    (hloop : processLoop f g (compounds.map (normalizeComp (totalConc compounds))) =
      (.ok recs, logs)) :
    (augment_payload compounds f g).1 = .ok recs := by
  rw [augment_payload_of_total_ne compounds f g ht]
  simp [hloop]

lemma map_cas_normalize (l : List Compound) (t : ℚ) :
    (l.map (normalizeComp t)).map Compound.cas = l.map Compound.cas := by
  induction l with
  | nil => rfl
  | cons c rest ih => simp [normalizeComp, ih]

lemma sum_map_normalize (l : List Compound) (t : ℚ) :
    ((l.map (normalizeComp t)).map Compound.conc).sum =
      (l.map Compound.conc).sum / t * 100 := by
  induction l with
  | nil => simp
  | cons c rest ih =>
    simp only [List.map_cons, List.sum_cons, normalizeComp, ih]
    ring

lemma pyOrStr_some_some (s1 s2 : String) : pyOrStr (some s1) (some s2) ≠ none := by
  show (if s1 = "" then some s2 else some s1) ≠ none
  split <;> simp

/-- Claim C7: for the empty input list, augment_payload returns the
empty output list without raising any error, despite the quantity total
being zero. -/
theorem c7_empty_input (f : String → FetchOutcome CidResponse)
    (g : Option ℤ → FetchOutcome ChemResponse) :
    augment_payload [] f g = (.ok [], [], []) := rfl

/-- Claim C4: for every non-empty input list with positive quantities,
and whatever the lookup oracles do, augment_payload normalizes each
quantity in place to quantity divided by the pre-resolution total times
100, and the sum of the normalized quantities over all original inputs
is exactly 100; inputs later skipped still contributed to the total. -/
theorem c4_normalize_then_filter (compounds : List Compound)
    (f : String → FetchOutcome CidResponse)
    (g : Option ℤ → FetchOutcome ChemResponse)
    (hne : compounds ≠ []) (hpos : ∀ c ∈ compounds, 0 < c.conc) :
    (augment_payload compounds f g).2.1 =
      compounds.map (normalizeComp (totalConc compounds)) ∧
    (((augment_payload compounds f g).2.1).map Compound.conc).sum = 100 := by
  have hpos2 : ∀ x ∈ compounds.map Compound.conc, 0 < x := by
    intro x hx
    obtain ⟨c, hc, rfl⟩ := List.mem_map.mp hx
    exact hpos c hc
  have hne2 : compounds.map Compound.conc ≠ [] := by
    intro hmap
    exact hne (List.map_eq_nil_iff.mp hmap)
  have ht : 0 < totalConc compounds := List.sum_pos _ hpos2 hne2
  have heq := augment_payload_mutates compounds f g (ne_of_gt ht)
  refine ⟨heq, ?_⟩
  rw [heq, sum_map_normalize,
    show (compounds.map Compound.conc).sum = totalConc compounds from rfl,
    div_self (ne_of_gt ht)]
  norm_num

/-- Witness for C4 on a concrete run whose lookups all fail at the
transport level: the mutation is still applied and the total is 100. -/
theorem c4_normalize_then_filter_witness :
    (augment_payload [⟨"50-00-0", (30 : ℚ)⟩, ⟨"64-17-5", (70 : ℚ)⟩]
        (fun _ => .otherError "down") (fun _ => .otherError "down")).2.1 =
      [⟨"50-00-0", (30 : ℚ)⟩, ⟨"64-17-5", (70 : ℚ)⟩].map
        (normalizeComp (totalConc [⟨"50-00-0", (30 : ℚ)⟩, ⟨"64-17-5", (70 : ℚ)⟩])) ∧
    (((augment_payload [⟨"50-00-0", (30 : ℚ)⟩, ⟨"64-17-5", (70 : ℚ)⟩]
        (fun _ => .otherError "down") (fun _ => .otherError "down")).2.1).map
        Compound.conc).sum = 100 :=
  c4_normalize_then_filter _ _ _ (by simp)
    (by
      intro c hc
      simp only [List.mem_cons, List.not_mem_nil, or_false] at hc
      rcases hc with rfl | rfl <;> norm_num)

/-- Claim C10: for every call with a nonzero quantity total, the conc
field of every element of the compound list supplied by the caller is
overwritten in place with its normalized value; the final state of that
list does not depend on the lookup oracles at all, so the mutation
happens before any external lookup and persists even when a later
failure aborts the whole request. -/
theorem c10_mutation_persists (compounds : List Compound)
    (f : String → FetchOutcome CidResponse)
    (g : Option ℤ → FetchOutcome ChemResponse)
    (ht : totalConc compounds ≠ 0) :
    (augment_payload compounds f g).2.1 =
      compounds.map (normalizeComp (totalConc compounds)) :=
  augment_payload_mutates compounds f g ht

/-- Witness for C10 on a run aborted by a network error: the response is
the 500 error, yet the input list has been normalized in place. -/
theorem c10_mutation_persists_witness :
    (augment_payload [⟨"50-00-0", (4 : ℚ)⟩]
        (fun _ => .otherError "net down") (fun _ => .otherError "net down")).2.1 =
      [⟨"50-00-0", (4 : ℚ)⟩].map (normalizeComp (totalConc [⟨"50-00-0", (4 : ℚ)⟩])) ∧
    (augment_payload [⟨"50-00-0", (4 : ℚ)⟩]
        (fun _ => .otherError "net down") (fun _ => .otherError "net down")).1 =
      .error ⟨500, "Internal Server Error"⟩ := by
  have ht : totalConc [⟨"50-00-0", (4 : ℚ)⟩] ≠ 0 := by norm_num [totalConc]
  refine ⟨c10_mutation_persists _ _ _ ht, ?_⟩
  rw [augment_payload_of_total_ne _ _ _ ht]
  simp [processLoop]

/-- Counterexample to claim C2: with a non-empty list of total quantity
zero, the failure surfaced to the caller is HTTP 500 Internal Server
Error, which is not a client error, and no InvalidInputError exists in
the code. -/
theorem c2_counterexample :
    augment_payload [⟨"50-00-0", (0 : ℚ)⟩]
        (fun _ => .ok none) (fun _ => .ok none) =
      (.error ⟨500, "Internal Server Error"⟩, [⟨"50-00-0", (0 : ℚ)⟩], [.errorOuter]) ∧
    ¬ isClientError ⟨500, "Internal Server Error"⟩ := by
  refine ⟨?_, by decide⟩
  unfold augment_payload
  rw [if_pos ⟨by simp, by norm_num [totalConc]⟩]

/-- Claim C2 (amended): for every non-empty input list whose quantities
sum to zero, augment_payload fails with no output records, but the
failure is surfaced as HTTP 500 Internal Server Error, a generic server
error rather than a client error; the input list is left unchanged. -/
theorem c2_amended_zero_total_is_server_error (compounds : List Compound)
    (f : String → FetchOutcome CidResponse)
    (g : Option ℤ → FetchOutcome ChemResponse)
    (hne : compounds ≠ []) (h0 : totalConc compounds = 0) :
    augment_payload compounds f g =
      (.error ⟨500, "Internal Server Error"⟩, compounds, [.errorOuter]) ∧
    ¬ isClientError ⟨500, "Internal Server Error"⟩ := by
  refine ⟨?_, by decide⟩
  unfold augment_payload
  rw [if_pos ⟨hne, h0⟩]

/-- Witness for the amended C2 with nonzero quantities of zero sum. -/
theorem c2_amended_zero_total_is_server_error_witness :
    augment_payload [⟨"50-00-0", (3 : ℚ)⟩, ⟨"64-17-5", (-3 : ℚ)⟩]
        (fun _ => .ok none) (fun _ => .ok none) =
      (.error ⟨500, "Internal Server Error"⟩,
        [⟨"50-00-0", (3 : ℚ)⟩, ⟨"64-17-5", (-3 : ℚ)⟩], [.errorOuter]) ∧
    ¬ isClientError ⟨500, "Internal Server Error"⟩ :=
  c2_amended_zero_total_is_server_error _ _ _ (by simp) (by norm_num [totalConc])

/-- Claim C5: for every input list in which every identifier resolves
successfully (the name lookup returns a non-empty CID list) and every
property fetch succeeds (the call returns and its Properties entry
yields a property dict), augment_payload returns an output list of the
same length as the input list, with records in the same relative order
as their inputs (same CAS sequence). -/
theorem c5_all_success_same_length_order (compounds : List Compound)
    (f : String → FetchOutcome CidResponse)
    (g : Option ℤ → FetchOutcome ChemResponse)
    (ht : compounds = [] ∨ totalConc compounds ≠ 0)
    (h : ∀ c ∈ compounds, lookupChainOk f g c.cas) :
    ∃ recs, (augment_payload compounds f g).1 = .ok recs ∧
      recs.map AugRecord.cas = compounds.map Compound.cas ∧
      recs.length = compounds.length := by
  rcases ht with rfl | ht
  · exact ⟨[], rfl, rfl, rfl⟩
  · have hall : ∀ c ∈ compounds.map (normalizeComp (totalConc compounds)),
        (recordOf f g c).isSome = true := by
      intro c hc
      obtain ⟨c0, hc0, rfl⟩ := List.mem_map.mp hc
      exact recordOf_isSome_of_chainOk f g _ (h c0 hc0)
    obtain ⟨logs, hloop⟩ := processLoop_ok f g _ fun c hc => Or.inr (hall c hc)
    have hcas : ((compounds.map (normalizeComp (totalConc compounds))).filterMap
        (recordOf f g)).map AugRecord.cas = compounds.map Compound.cas := by
      rw [filterMap_recordOf_map_cas f g _ hall, map_cas_normalize]
    refine ⟨_, augment_payload_fst_of_ok compounds f g _ _ ht hloop, hcas, ?_⟩
    have hlen := congrArg List.length hcas
    simpa using hlen

/-- Witness for C5 on a concrete two-compound run where both lookups
succeed. -/
theorem c5_all_success_same_length_order_witness :
    ∃ recs,
      (augment_payload [⟨"50-00-0", (30 : ℚ)⟩, ⟨"64-17-5", (70 : ℚ)⟩]
          (fun _ => .ok (some (some [712])))
          (fun _ => .ok (some (some [⟨some "C=O", some "C=O", some 17, some 30, some 1, some 1, some 2⟩])))).1 =
        .ok recs ∧
      recs.map AugRecord.cas =
        [⟨"50-00-0", (30 : ℚ)⟩, ⟨"64-17-5", (70 : ℚ)⟩].map Compound.cas ∧
      recs.length = ([⟨"50-00-0", (30 : ℚ)⟩, ⟨"64-17-5", (70 : ℚ)⟩] : List Compound).length :=
  c5_all_success_same_length_order _ _ _
    (Or.inr (by norm_num [totalConc]))
    (by
      intro c hc
      exact ⟨some (some [712]), 712,
        some (some [⟨some "C=O", some "C=O", some 17, some 30, some 1, some 1, some 2⟩]),
        ⟨some "C=O", some "C=O", some 17, some 30, some 1, some 1, some 2⟩,
        rfl, rfl, rfl, rfl⟩)

lemma chainOk_normalized (f : String → FetchOutcome CidResponse)
    (g : Option ℤ → FetchOutcome ChemResponse) (t : ℚ) (l : List Compound)
    (h : ∀ c ∈ l, lookupChainOk f g c.cas) :
    ∀ c ∈ l.map (normalizeComp t), (recordOf f g c).isSome = true := by
  intro c hc
  obtain ⟨c0, hc0, rfl⟩ := List.mem_map.mp hc
  exact recordOf_isSome_of_chainOk f g _ (h c0 hc0)

/-- Counterexample to claim C1: a name lookup that returns an empty
identifier result set does not lead to the input being skipped.  First
run: the response has no IdentifierList, so the code proceeds with a
None CID and emits a record for the input, with every property null.
Second run: the response has a present but empty CID list, so reading
its first element raises IndexError and the whole request aborts with
HTTP 500, emitting nothing for the remaining input either. -/
theorem c1_counterexample :
    (augment_payload [⟨"50-00-0", (1 : ℚ)⟩] (fun _ => .ok none) (fun _ => .ok none)).1 =
      .ok [⟨"50-00-0", 100, none, none, none, none, none, none⟩] ∧
    (augment_payload [⟨"50-00-0", (1 : ℚ)⟩] (fun _ => .ok none) (fun _ => .ok none)).1 ≠
      .ok [] ∧
    (augment_payload [⟨"50-00-0", (1 : ℚ)⟩, ⟨"64-17-5", (1 : ℚ)⟩]
        (fun cas => if cas = "50-00-0" then .ok (some (some [])) else .ok (some (some [702])))
        (fun _ => .ok (some (some [emptyProps])))).1 =
      .error ⟨500, "Internal Server Error"⟩ := by
  have ht1 : totalConc [⟨"50-00-0", (1 : ℚ)⟩] ≠ 0 := by norm_num [totalConc]
  have ht2 : totalConc [⟨"50-00-0", (1 : ℚ)⟩, ⟨"64-17-5", (1 : ℚ)⟩] ≠ 0 := by
    norm_num [totalConc]
  have h1 : (augment_payload [⟨"50-00-0", (1 : ℚ)⟩]
      (fun _ => .ok none) (fun _ => .ok none)).1 =
      .ok [⟨"50-00-0", 100, none, none, none, none, none, none⟩] := by
    rw [augment_payload_of_total_ne _ _ _ ht1]
    norm_num [processLoop, extractCid, get_chemical_data, extractProps,
      assembleRecord, emptyProps, pyOrStr, normalizeComp, totalConc, missingWarnings]
  refine ⟨h1, ?_, ?_⟩
  · rw [h1]
    simp
  · rw [augment_payload_of_total_ne _ _ _ ht2]
    simp [processLoop, extractCid, normalizeComp]

/-- Claim C1 (amended): only a name lookup failing with an upstream
non-success status makes augment_payload skip the input; in that case
no record is emitted for it and the remaining inputs are processed
normally, in order.  A name lookup returning an empty identifier result
set does not skip the input (a record with null properties is emitted,
or the request aborts when the CID list is present but empty), and a
network error aborts the whole request with a 500 server error. -/
theorem c1_amended_status_error_skips (pre post : List Compound) (cb : Compound)
    (f : String → FetchOutcome CidResponse)
    (g : Option ℤ → FetchOutcome ChemResponse) (m : String)
    (ht : totalConc (pre ++ cb :: post) ≠ 0)
    (hfail : f cb.cas = .statusError m)
    (h : ∀ c ∈ pre ++ post, lookupChainOk f g c.cas) :
    ∃ recs, (augment_payload (pre ++ cb :: post) f g).1 = .ok recs ∧
      recs.map AugRecord.cas = (pre ++ post).map Compound.cas := by
  have hA : ∀ c ∈ pre.map (normalizeComp (totalConc (pre ++ cb :: post))),
      (recordOf f g c).isSome = true :=
    chainOk_normalized f g _ pre fun c hc => h c (List.mem_append_left _ hc)
  have hB : ∀ c ∈ post.map (normalizeComp (totalConc (pre ++ cb :: post))),
      (recordOf f g c).isSome = true :=
    chainOk_normalized f g _ post fun c hc => h c (List.mem_append_right _ hc)
  have hrecnb : recordOf f g (normalizeComp (totalConc (pre ++ cb :: post)) cb) = none := by
    simp [recordOf, normalizeComp, hfail]
  have hskip : skippedAt f (normalizeComp (totalConc (pre ++ cb :: post)) cb) = true := by
    simp [skippedAt, normalizeComp, hfail]
  have hsplit : (pre ++ cb :: post).map (normalizeComp (totalConc (pre ++ cb :: post))) =
      pre.map (normalizeComp (totalConc (pre ++ cb :: post))) ++
        normalizeComp (totalConc (pre ++ cb :: post)) cb ::
        post.map (normalizeComp (totalConc (pre ++ cb :: post))) := by
    simp
  obtain ⟨logs, hloop⟩ := processLoop_ok f g
      ((pre ++ cb :: post).map (normalizeComp (totalConc (pre ++ cb :: post))))
      (by
        rw [hsplit]
        intro c hc
        rcases List.mem_append.mp hc with hc | hc
        · exact Or.inr (hA c hc)
        · rcases List.mem_cons.mp hc with rfl | hc
          · exact Or.inl hskip
          · exact Or.inr (hB c hc))
  refine ⟨_, augment_payload_fst_of_ok _ f g _ _ ht hloop, ?_⟩
  rw [hsplit, List.filterMap_append, List.filterMap_cons, hrecnb]
  rw [List.map_append, filterMap_recordOf_map_cas f g _ hA,
    filterMap_recordOf_map_cas f g _ hB, map_cas_normalize, map_cas_normalize,
    List.map_append]

/-- Witness for the amended C1: the middle input fails with a status
error and is skipped; the two others produce records in order. -/
theorem c1_amended_status_error_skips_witness :
    ∃ recs,
      (augment_payload [⟨"50-00-0", (1 : ℚ)⟩, ⟨"999-99-9", (1 : ℚ)⟩, ⟨"64-17-5", (2 : ℚ)⟩]
          (fun cas => if cas = "999-99-9" then .statusError "404 Not Found"
            else .ok (some (some [702])))
          (fun _ => .ok (some (some [emptyProps])))).1 = .ok recs ∧
      recs.map AugRecord.cas =
        (([⟨"50-00-0", (1 : ℚ)⟩] : List Compound) ++
          ([⟨"64-17-5", (2 : ℚ)⟩] : List Compound)).map Compound.cas :=
  c1_amended_status_error_skips [⟨"50-00-0", (1 : ℚ)⟩] [⟨"64-17-5", (2 : ℚ)⟩]
    ⟨"999-99-9", (1 : ℚ)⟩
    (fun cas => if cas = "999-99-9" then .statusError "404 Not Found"
      else .ok (some (some [702])))
    (fun _ => .ok (some (some [emptyProps]))) "404 Not Found"
    (by norm_num [totalConc])
    (by decide)
    (by
      intro c hc
      simp only [List.mem_append, List.mem_cons, List.not_mem_nil, or_false] at hc
      rcases hc with rfl | rfl <;>
        exact ⟨some (some [702]), 702, some (some [emptyProps]), emptyProps,
          by decide, rfl, rfl, rfl⟩)

/-- Counterexample to claim C3: an input whose identifier resolves but
whose property lookup fails with an upstream non-success status is not
skipped: the error response from get_chemical_data has no PropertyTable
key, so a record is still emitted for the input, with every property
field null. -/
theorem c3_counterexample :
    (augment_payload [⟨"50-00-0", (4 : ℚ)⟩]
        (fun _ => .ok (some (some [702])))
        (fun _ => .statusError "503 Service Unavailable")).1 =
      .ok [⟨"50-00-0", 100, none, none, none, none, none, none⟩] ∧
    (augment_payload [⟨"50-00-0", (4 : ℚ)⟩]
        (fun _ => .ok (some (some [702])))
        (fun _ => .statusError "503 Service Unavailable")).1 ≠ .ok [] := by
  have ht : totalConc [⟨"50-00-0", (4 : ℚ)⟩] ≠ 0 := by norm_num [totalConc]
  have h1 : (augment_payload [⟨"50-00-0", (4 : ℚ)⟩]
      (fun _ => .ok (some (some [702])))
      (fun _ => .statusError "503 Service Unavailable")).1 =
      .ok [⟨"50-00-0", 100, none, none, none, none, none, none⟩] := by
    rw [augment_payload_of_total_ne _ _ _ ht]
    norm_num [processLoop, extractCid, get_chemical_data, extractProps,
      assembleRecord, emptyProps, pyOrStr, normalizeComp, totalConc, missingWarnings]
  refine ⟨h1, ?_⟩
  rw [h1]
  simp

/-- Claim C3 (amended): for every input whose identifier resolves but
whose property lookup fails with an upstream non-success status, the
input is not skipped: a record is emitted for it, in place, with every
property field null, while the other inputs produce their records as
usual.  Only a network error in the property fetch aborts the request. -/
theorem c3_amended_property_failure_emits_null_record
    (pre post : List Compound) (cb : Compound)
    (f : String → FetchOutcome CidResponse)
    (g : Option ℤ → FetchOutcome ChemResponse)
    (resp : CidResponse) (cid : Option ℤ) (m : String)
    (ht : totalConc (pre ++ cb :: post) ≠ 0)
    (hok : f cb.cas = .ok resp) (hcid : extractCid resp = .ok cid)
    (hchem : g cid = .statusError m)
    (h : ∀ c ∈ pre ++ post, lookupChainOk f g c.cas) :
    ∃ recs1 recs2,
      (augment_payload (pre ++ cb :: post) f g).1 =
        .ok (recs1 ++ ⟨cb.cas, cb.conc / totalConc (pre ++ cb :: post) * 100,
          none, none, none, none, none, none⟩ :: recs2) ∧
      recs1.map AugRecord.cas = pre.map Compound.cas ∧
      recs2.map AugRecord.cas = post.map Compound.cas := by
  have hA : ∀ c ∈ pre.map (normalizeComp (totalConc (pre ++ cb :: post))),
      (recordOf f g c).isSome = true :=
    chainOk_normalized f g _ pre fun c hc => h c (List.mem_append_left _ hc)
  have hB : ∀ c ∈ post.map (normalizeComp (totalConc (pre ++ cb :: post))),
      (recordOf f g c).isSome = true :=
    chainOk_normalized f g _ post fun c hc => h c (List.mem_append_right _ hc)
  have hrecnb : recordOf f g (normalizeComp (totalConc (pre ++ cb :: post)) cb) =
      some ⟨cb.cas, cb.conc / totalConc (pre ++ cb :: post) * 100,
        none, none, none, none, none, none⟩ := by
    simp [recordOf, normalizeComp, hok, hcid, hchem, get_chemical_data,
      extractProps, assembleRecord, emptyProps, pyOrStr]
  have hsplit : (pre ++ cb :: post).map (normalizeComp (totalConc (pre ++ cb :: post))) =
      pre.map (normalizeComp (totalConc (pre ++ cb :: post))) ++
        normalizeComp (totalConc (pre ++ cb :: post)) cb ::
        post.map (normalizeComp (totalConc (pre ++ cb :: post))) := by
    simp
  obtain ⟨logs, hloop⟩ := processLoop_ok f g
      ((pre ++ cb :: post).map (normalizeComp (totalConc (pre ++ cb :: post))))
      (by
        rw [hsplit]
        intro c hc
        rcases List.mem_append.mp hc with hc | hc
        · exact Or.inr (hA c hc)
        · rcases List.mem_cons.mp hc with rfl | hc
          · exact Or.inr (by rw [hrecnb]; rfl)
          · exact Or.inr (hB c hc))
  refine ⟨pre.map (normalizeComp (totalConc (pre ++ cb :: post))) |>.filterMap (recordOf f g),
    post.map (normalizeComp (totalConc (pre ++ cb :: post))) |>.filterMap (recordOf f g),
    ?_, ?_, ?_⟩
  · have := augment_payload_fst_of_ok _ f g _ _ ht hloop
    rw [this, hsplit, List.filterMap_append, List.filterMap_cons, hrecnb]
  · rw [filterMap_recordOf_map_cas f g _ hA, map_cas_normalize]
  · rw [filterMap_recordOf_map_cas f g _ hB, map_cas_normalize]

/-- Witness for the amended C3: the middle input resolves but its
property fetch returns a non-success status; a null-property record is
emitted for it between the records of the two other inputs. -/
theorem c3_amended_property_failure_emits_null_record_witness :
    ∃ recs1 recs2,
      (augment_payload [⟨"50-00-0", (1 : ℚ)⟩, ⟨"999-99-9", (1 : ℚ)⟩, ⟨"64-17-5", (2 : ℚ)⟩]
          (fun cas => if cas = "999-99-9" then .ok (some (some [555]))
            else .ok (some (some [702])))
          (fun cid => if cid = some 555 then .statusError "503"
            else .ok (some (some [emptyProps])))).1 =
        .ok (recs1 ++ ⟨"999-99-9",
          (⟨"999-99-9", (1 : ℚ)⟩ : Compound).conc /
            totalConc [⟨"50-00-0", (1 : ℚ)⟩, ⟨"999-99-9", (1 : ℚ)⟩, ⟨"64-17-5", (2 : ℚ)⟩] * 100,
          none, none, none, none, none, none⟩ :: recs2) ∧
      recs1.map AugRecord.cas = [⟨"50-00-0", (1 : ℚ)⟩].map Compound.cas ∧
      recs2.map AugRecord.cas = [⟨"64-17-5", (2 : ℚ)⟩].map Compound.cas :=
  c3_amended_property_failure_emits_null_record
    [⟨"50-00-0", (1 : ℚ)⟩] [⟨"64-17-5", (2 : ℚ)⟩] ⟨"999-99-9", (1 : ℚ)⟩
    (fun cas => if cas = "999-99-9" then .ok (some (some [555]))
      else .ok (some (some [702])))
    (fun cid => if cid = some 555 then .statusError "503"
      else .ok (some (some [emptyProps])))
    (some (some [555])) (some 555) "503"
    (by norm_num [totalConc])
    (by decide) rfl (by decide)
    (by
      intro c hc
      simp only [List.mem_append, List.mem_cons, List.not_mem_nil, or_false] at hc
      rcases hc with rfl | rfl <;>
        exact ⟨some (some [702]), 702, some (some [emptyProps]), emptyProps,
          by decide, rfl, by decide, rfl⟩)

/-- Counterexample to claim C6: on a transport failure of the aggregate
preview endpoint, get_json_data_summary raises HTTPException 404, which
is not a server error, and its detail embeds the internal exception
text instead of a generic message. -/
theorem c6_counterexample :
    @get_json_data_summary ℕ (.otherError "connection refused") =
      .error ⟨404, "Error : connection refused"⟩ ∧
    ¬ isServerError ⟨404, "Error : connection refused"⟩ :=
  ⟨rfl, by decide⟩

/-- Claim C6 (amended): every failure of the fetch behind the aggregate
preview endpoint, transport-level or status-level, is surfaced as HTTP
404 (a client-error status, not a server error) whose detail string
embeds the text of the internal exception; the details are echoed to
the caller rather than hidden. -/
theorem c6_amended_404_echoes_exception (m : String) :
    @get_json_data_summary ℕ (.statusError m) = .error ⟨404, "Error : " ++ m⟩ ∧
    @get_json_data_summary ℕ (.otherError m) = .error ⟨404, "Error : " ++ m⟩ ∧
    ¬ isServerError ⟨404, "Error : " ++ m⟩ ∧
    isClientError ⟨404, "Error : " ++ m⟩ := by
  refine ⟨rfl, rfl, ?_, ?_⟩
  · intro hx
    exact absurd hx.1 (by norm_num)
  · exact ⟨by norm_num, by norm_num⟩

/-- Claim C8: for a surviving input whose property payload is missing
exactly one requested field, here the partition coefficient XLogP, the
assembled output record has null exactly for that field, non-null
values for the other property fields, and the null substitution is the
one missing-property warning logged. -/
theorem c8_single_missing_field_null_and_logged
    (cas s1 s2 : String) (q t mw hb cx : ℚ) (hq : q ≠ 0) :
    augment_payload [⟨cas, q⟩]
        (fun _ => .ok (some (some [702])))
        (fun _ => .ok (some (some [⟨some s1, some s2, some t, some mw, none, some hb, some cx⟩]))) =
      (.ok [⟨cas, 100, pyOrStr (some s1) (some s2),
          some t, some mw, none, some hb, some cx⟩],
        [⟨cas, 100⟩],
        [.infoChem, .warnMissing "logP" cas]) ∧
    (pyOrStr (some s1) (some s2)).isSome = true := by
  have htot : totalConc [⟨cas, q⟩] = q := by simp [totalConc]
  have ht : totalConc [⟨cas, q⟩] ≠ 0 := by rw [htot]; exact hq
  have h100 : q / totalConc [⟨cas, q⟩] * 100 = 100 := by
    rw [htot, div_self hq]
    norm_num
  constructor
  · rw [augment_payload_of_total_ne _ _ _ ht]
    simp only [List.map_cons, List.map_nil, normalizeComp, h100]
    simp [processLoop, extractCid, get_chemical_data, extractProps, assembleRecord,
      missingWarnings, pyOrStr_some_some s1 s2]
  · exact Option.isSome_iff_ne_none.mpr (pyOrStr_some_some s1 s2)

/-- Witness for C8 at concrete property values. -/
theorem c8_single_missing_field_null_and_logged_witness :
    augment_payload [⟨"50-00-0", (2 : ℚ)⟩]
        (fun _ => .ok (some (some [702])))
        (fun _ => .ok (some (some [⟨some "C=O", some "C=O", some 17, some 30, none, some 1, some 2⟩]))) =
      (.ok [⟨"50-00-0", 100, pyOrStr (some "C=O") (some "C=O"),
          some 17, some 30, none, some 1, some 2⟩],
        [⟨"50-00-0", 100⟩],
        [.infoChem, .warnMissing "logP" "50-00-0"]) ∧
    (pyOrStr (some "C=O") (some "C=O")).isSome = true :=
  c8_single_missing_field_null_and_logged "50-00-0" "C=O" "C=O" 2 17 30 1 2 (by norm_num)

/-- Claim C9: for every surviving input whose property payload lacks the
CanonicalSMILES string, the smiles field of the emitted record is the
IsomericSMILES value of the payload rather than null by default. -/
theorem c9_smiles_falls_back_to_isomeric (cas : String) (q : ℚ) (p : ChemProps)
    (hq : q ≠ 0) (hcanon : p.canonicalSMILES = none) :
    ∃ r, (augment_payload [⟨cas, q⟩]
        (fun _ => .ok (some (some [702])))
        (fun _ => .ok (some (some [p])))).1 = .ok [r] ∧
      r.smiles = p.isomericSMILES ∧ r.cas = cas := by
  have htot : totalConc [⟨cas, q⟩] = q := by simp [totalConc]
  have ht : totalConc [⟨cas, q⟩] ≠ 0 := by rw [htot]; exact hq
  refine ⟨assembleRecord cas (q / totalConc [⟨cas, q⟩] * 100) p, ?_, ?_, rfl⟩
  · rw [augment_payload_of_total_ne _ _ _ ht]
    simp [processLoop, extractCid, get_chemical_data, extractProps, normalizeComp]
  · simp [assembleRecord, hcanon, pyOrStr]

/-- Witness for C9: the canonical string is absent, the isomeric string
is present, and the record carries the isomeric string. -/
theorem c9_smiles_falls_back_to_isomeric_witness :
    ∃ r, (augment_payload [⟨"64-17-5", (5 : ℚ)⟩]
        (fun _ => .ok (some (some [702])))
        (fun _ => .ok (some (some [⟨none, some "CCO", some 20, some 46, some 1, some 1, some 3⟩])))).1 =
      .ok [r] ∧
      r.smiles = (⟨none, some "CCO", some 20, some 46, some 1, some 1, some 3⟩ : ChemProps).isomericSMILES ∧
      r.cas = "64-17-5" :=
  c9_smiles_falls_back_to_isomeric "64-17-5" 5
    ⟨none, some "CCO", some 20, some 46, some 1, some 1, some 3⟩ (by norm_num) rfl

end PubChemProxy
